import Mathlib

/-!
Verification of the BotFramework-Composer deployment module
(`src/Composer/packages/lib/bot-deploy/src/botProjectDeploy.ts`).

The TypeScript code is shallowly embedded: JavaScript values that flow
through the deployment code are modelled by `JsonV`, JavaScript objects by
ordered association lists, `Object.assign` by `assignObj`, and the
orchestration methods `create` and `deploy` by pure functions from an
environment (the responses of the external services and the file system)
to a trace of performed external effects plus a result.
-/

namespace BotDeploy

/-- Model of a JavaScript/JSON value as it flows through the deployment
code. `vnull` also stands for `undefined`. -/
inductive JsonV : Type where
  | vnull : JsonV
  | vbool : Bool → JsonV
  | vnum : Int → JsonV
  | vstr : String → JsonV
  | vobj : List (String × JsonV) → JsonV

/-- Property lookup on a JavaScript object (field list): the value bound to
the key, if any. JavaScript objects have unique keys; lookups return the
first binding. -/
def objGet : List (String × JsonV) → String → Option JsonV
  | [], _ => none
  | (k, v) :: rest, key => if key = k then some v else objGet rest key

/-- Property access `o[k]` on an arbitrary value: `undefined` (here `none`)
unless the value is an object carrying the key. -/
def getField : JsonV → String → Option JsonV
  | JsonV.vobj fields, key => objGet fields key
  | _, _ => none

/-- JavaScript truthiness of a value, as used by the `if (x)` tests in the
source. -/
def jsTruthy : JsonV → Bool
  | JsonV.vnull => false
  | JsonV.vbool b => b
  | JsonV.vnum n => n ≠ 0
  | JsonV.vstr s => s ≠ ""
  | JsonV.vobj _ => true

/-- Truthiness of a possibly-absent value (`undefined` is falsy). -/
def jsTruthyOpt : Option JsonV → Bool
  | some v => jsTruthy v
  | none => false

/-- Single-key update with `Object.assign` semantics: an existing binding is
overwritten in place (its position is kept), a new key is appended at the
end. -/
def assignKV : List (String × JsonV) → String → JsonV → List (String × JsonV)
  | [], k, v => [(k, v)]
  | (k0, v0) :: rest, k, v =>
    if k0 = k then (k, v) :: rest else (k0, v0) :: assignKV rest k v

/-- `Object.assign(base, updates)`: every binding of `updates` is applied to
`base` in order. -/
def assignObj (base updates : List (String × JsonV)) : List (String × JsonV) :=
  updates.foldl (fun acc kv => assignKV acc kv.1 kv.2) base

/-- First-some choice, the shape of repeated `Object.assign` on one key. -/
def jsOrElse (a b : Option JsonV) : Option JsonV :=
  match a with
  | some v => some v
  | none => b

/-! ### Basic lemmas about object lookup and assignment -/

/-- Lookup after a single `Object.assign`-style update of one key. -/
theorem objGet_assignKV (l : List (String × JsonV)) (k key : String) (v : JsonV) :
    objGet (assignKV l k v) key = if key = k then some v else objGet l key := by
  induction l with
  | nil => simp [assignKV, objGet]
  | cons hd tl ih =>
    obtain ⟨k0, v0⟩ := hd
    by_cases hk : k0 = k
    · subst hk
      by_cases hkey : key = k0 <;> simp [assignKV, objGet, hkey]
    · by_cases hkey : key = k0
      · have hne : ¬ key = k := fun he => hk (hkey.symm.trans he)
        simp [assignKV, objGet, hk, hkey, hne]
      · simp [assignKV, objGet, hk, hkey, ih]

theorem objGet_mem_of_some (l : List (String × JsonV)) (k : String) (v : JsonV)
    (h : objGet l k = some v) : k ∈ l.map Prod.fst := by
  induction l with
  | nil => simp [objGet] at h
  | cons hd tl ih =>
    obtain ⟨k0, v0⟩ := hd
    simp only [objGet] at h
    by_cases hk : k = k0
    · simp [hk]
    · rw [if_neg hk] at h
      simp only [List.map_cons, List.mem_cons]
      exact Or.inr (ih h)

theorem objGet_none_of_not_mem (l : List (String × JsonV)) (k : String)
    (h : k ∉ l.map Prod.fst) : objGet l k = none := by
  induction l with
  | nil => rfl
  | cons hd tl ih =>
    obtain ⟨k0, v0⟩ := hd
    simp only [List.map_cons, List.mem_cons, not_or] at h
    simp only [objGet, if_neg h.1]
    exact ih h.2

/-- Lookup after `Object.assign(base, upd)` for an update object with
unique keys: a binding of the update wins, otherwise the base is consulted. -/
theorem objGet_assignObj (base upd : List (String × JsonV)) (k : String)
    (hnd : (upd.map Prod.fst).Nodup) :
    objGet (assignObj base upd) k = jsOrElse (objGet upd k) (objGet base k) := by
  induction upd generalizing base with
  | nil => rfl
  | cons hd tl ih =>
    obtain ⟨k0, v0⟩ := hd
    simp only [List.map_cons, List.nodup_cons] at hnd
    have step : assignObj base ((k0, v0) :: tl) = assignObj (assignKV base k0 v0) tl := rfl
    rw [step, ih _ hnd.2]
    by_cases hk : k = k0
    · have htl : objGet tl k = none :=
        objGet_none_of_not_mem tl k (fun hmem => hnd.1 (by rwa [hk] at hmem))
      rw [htl, objGet_assignKV]
      simp [objGet, jsOrElse, hk]
    · rw [objGet_assignKV]
      simp [objGet, jsOrElse, hk]

/-! ### LUIS publisher (`publishLuis`, source lines 123-298) -/

/-- Accumulation of the dialog-to-LUIS app id mappings read from the
`luis.settings` files of the build tree (source lines 209-215): starting
from the empty object, `Object.assign(luisAppIds, luisSettings.luis)` is
applied for each file in enumeration order. -/
def mergedLuisAppIds (files : List (List (String × JsonV))) : List (String × JsonV) :=
  files.foldl assignObj []

/-- Modelled from the words of the specification, for comparison with
`mergedLuisAppIds`: the union of the luis objects where, on a key
collision, the later file in enumeration order wins. -/
def lastWriteWinsUnion (files : List (List (String × JsonV))) (k : String) :
    Option JsonV :=
  files.foldl (fun acc f => jsOrElse (objGet f k) acc) none

/-- The base LUIS config object built by `publishLuis` (source lines
171-173 and 217-223), including the endpoint defaulting that precedes it.
The `luisAuthoringKey` parameter is in scope in the source but the object
assigns `authoringKey: luisAuthoringRegion`. -/
def publishLuisBaseConfig (luisEndpoint luisEndpointKey luisAuthoringKey
    luisAuthoringRegion : String) : List (String × JsonV) :=
  let endpointResolved :=
    if luisEndpoint = "" then
      "https://" ++ luisAuthoringRegion ++ ".api.cognitive.microsoft.com"
    else luisEndpoint
  [("endpoint", JsonV.vstr endpointResolved),
   ("endpointKey", JsonV.vstr luisEndpointKey),
   ("authoringRegion", JsonV.vstr luisAuthoringRegion),
   ("authoringKey", JsonV.vstr luisAuthoringRegion)]

/-- The full luis config written to the settings file: the base config with
the accumulated app id mapping assigned on top (source line 226). -/
def luisConfigOf (luisEndpoint luisEndpointKey luisAuthoringKey
    luisAuthoringRegion : String) (luisAppIds : List (String × JsonV)) :
    List (String × JsonV) :=
  assignObj
    (publishLuisBaseConfig luisEndpoint luisEndpointKey luisAuthoringKey
      luisAuthoringRegion)
    luisAppIds

/-- The settings-file update performed by `publishLuis` (source lines
231-235): the previously read settings object with its `luis` property set
to the freshly built config. -/
def writeLuisSettings (settings luisConfig : List (String × JsonV)) :
    List (String × JsonV) :=
  assignKV settings "luis" (JsonV.vobj luisConfig)

/-- The app id recorded for dialog key `k` inside the `luis` sub-record of a
settings object, if any. -/
def luisAppIdIn (settings : List (String × JsonV)) (k : String) : Option JsonV :=
  match objGet settings "luis" with
  | some (JsonV.vobj l) => objGet l k
  | _ => none

/-! ### Provisioning helpers (`pack`, `unpackObject`,
`getDeploymentTemplateParam`, `updateDeploymentJsonFile`) -/

/-- Wrap a value in the `{value}` shape required by the template API
(source lines 472-476). -/
def pack (scope : JsonV) : JsonV :=
  JsonV.vobj [("value", scope)]

/-- Unwrap a deployment-outputs object into a flat mapping (source lines
478-487): a key is kept exactly when `output[key].value` is truthy. -/
def unpackObject : List (String × JsonV) → List (String × JsonV)
  | [] => []
  | (key, objValue) :: rest =>
    match getField objValue "value" with
    | some v => if jsTruthy v then (key, v) :: unpackObject rest else unpackObject rest
    | none => unpackObject rest

/-- The template parameter object (source lines 492-514). -/
def getDeploymentTemplateParam (appId : JsonV) (appPwd location name : String)
    (shouldCreateAuthoringResource shouldCreateLuisResource useAppInsights
      useCosmosDb useStorage : Bool) : List (String × JsonV) :=
  [("appId", pack appId),
   ("appSecret", pack (JsonV.vstr appPwd)),
   ("appServicePlanLocation", pack (JsonV.vstr location)),
   ("botId", pack (JsonV.vstr name)),
   ("shouldCreateAuthoringResource", pack (JsonV.vbool shouldCreateAuthoringResource)),
   ("shouldCreateLuisResource", pack (JsonV.vbool shouldCreateLuisResource)),
   ("useAppInsights", pack (JsonV.vbool useAppInsights)),
   ("useCosmosDb", pack (JsonV.vbool useCosmosDb)),
   ("useStorage", pack (JsonV.vbool useStorage))]

/-- The record computed by `updateDeploymentJsonFile` (source lines
427-449): when deployment outputs are present, the unwrapped outputs merged
with the application identity; otherwise `none`. Despite the name of the
source function, no file write occurs in its body. -/
def updateDeploymentJsonFile (outputs : Option (List (String × JsonV)))
    (appId : JsonV) (appPwd : String) : Option (List (String × JsonV)) :=
  match outputs with
  | some outputResult =>
    let applicationResult :=
      [("MicrosoftAppId", appId), ("MicrosoftAppPassword", JsonV.vstr appPwd)]
    let outputObj := unpackObject outputResult
    some (assignObj (assignObj [] outputObj) applicationResult)
  | none => none

/-! ### Packager (`zipDirectory`, source lines 85-102) -/

/-- The set of archive entries produced by `zipDirectory`: `sourceFiles` is
the recursive listing of the source directory as relative paths (the glob
`**/*` with `dot: true`), and the ignore list is the literal
`['code.zip']`, which as a glob pattern matches exactly the relative path
`code.zip`. -/
def zipEntries (sourceFiles : List String) : List String :=
  sourceFiles.filter (fun f => f ≠ "code.zip")

/-- The relative path of `out` inside directory `source`, when `out` lies
inside it. -/
def relativeTo (source out : String) : Option String :=
  if out.take (source.length + 1) = source ++ "/" then
    some (out.drop (source.length + 1))
  else none

/-- Whether the archive written to `out` contains an entry at its own
output path, given the relative listing `sourceFiles` of the source
directory (which contains the output file when it lies inside the source:
the output stream is created before the glob scan runs). -/
def archiveContainsItself (sourceFiles : List String) (source out : String) : Bool :=
  match relativeTo source out with
  | some rel => (zipEntries sourceFiles).contains rel
  | none => false

/-! ### Account-list error handling in `publishLuis` (source lines 252-262) -/

/-- The parsed `error` field of the body thrown by the azureaccounts call:
`JSON.parse(err.error).error`, with its optional `message` and `code`. -/
structure LuisErrBody where
  message : Option String
  code : Option String

/-- What `publishLuis` rethrows from the catch block around the
account-list call. -/
inductive Rethrown : Type where
  | original : Rethrown
  | descriptive : String → Rethrown
deriving DecidableEq

/-- Result of `subIdxAux pat hay i`: the index, counted from `i`, of the
first occurrence of `pat` in `hay`, if any. -/
def subIdxAux (pat : List Char) : List Char → Nat → Option Nat
  | [], i => if pat.isEmpty then some i else none
  | c :: t, i =>
    if pat.isPrefixOf (c :: t) then some i else subIdxAux pat t (i + 1)

/-- JavaScript `String.prototype.indexOf`: first index of the pattern, or
`-1` when absent. -/
def jsIndexOf (s pat : String) : Int :=
  match subIdxAux pat.toList s.toList 0 with
  | some n => (n : Int)
  | none => -1

/-- The catch handler around the account-list call (source lines 252-262):
when the parsed body has a truthy message whose `indexOf` of the text
`access token expiry` is strictly positive, a new descriptive error is
thrown; otherwise the original error is rethrown verbatim. -/
def accountListCatchHandler (body : Option LuisErrBody) : Rethrown :=
  match body with
  | some eb =>
    match eb.message with
    | some m =>
      if m ≠ "" ∧ jsIndexOf m "access token expiry" > 0 then
        Rethrown.descriptive
          ("Type: " ++ eb.code.getD "undefined" ++ ", Message: " ++ m ++
            ", run az account get-access-token, then replace the accessToken in your configuration")
      else Rethrown.original
    | none => Rethrown.original
  | none => Rethrown.original

/-! ### Orchestration (`create`, source lines 650-937, and `deploy`,
source lines 303-384)

The external calls performed by the orchestrators are recorded as an
explicit trace of effects; the responses of the external services and the
file-system contents are supplied by an environment record. -/

/-- One external call performed by the deployment module. -/
inductive Effect : Type where
  | getTenant : Effect
  | createApp : String → String → Effect
  | createResourceGroup : String → String → Effect
  | validateDeployment : String → List (String × JsonV) → Effect
  | createDeployment : String → List (String × JsonV) → Effect
  | linkAppInsights : String → Effect
  | getDeploymentOutputs : String → String → Effect
  | listDeploymentOperations : String → Effect
  | writeJsonFile : String → List (String × JsonV) → Effect
  | removeFile : String → Effect
  | buildDeploy : Effect
  | readSettings : String → Effect
  | publishLuis : String → String → String → String → Effect
  | zipDirectory : String → String → Effect
  | deployZip : String → String → Effect

/-- Whether the effect writes a file. -/
def Effect.isWrite : Effect → Bool
  | Effect.writeJsonFile _ _ => true
  | _ => false

/-- Whether the effect is the application-registration creation call. -/
def Effect.isCreateApp : Effect → Bool
  | Effect.createApp _ _ => true
  | _ => false

/-- Whether the effect is the create-or-update (template apply) call. -/
def Effect.isCreateDeployment : Effect → Bool
  | Effect.createDeployment _ _ => true
  | _ => false

/-- Whether the effect is a LUIS publish run. -/
def Effect.isPublishLuis : Effect → Bool
  | Effect.publishLuis _ _ _ _ => true
  | _ => false

/-- The error object optionally carried by the deployment-validate
response. -/
structure DeployValidationError where
  message : String
  details : List String

/-- Responses of the external services and file-system contents consumed by
one `create` run. -/
structure CreateEnv where
  accessToken : String
  subId : String
  tenantLookup : Option String
  settingsFileExists : Bool
  settings : List (String × JsonV)
  createdAppId : String
  validationError : Option DeployValidationError
  deploymentStatus : Nat
  appinsightsId : String
  instrumentationKey : String
  apiKey : String
  botHasProperties : Bool
  botUpdateStatus : Nat
  deploymentOutputs : Option (List (String × JsonV))
  timeStamp : String

/-- The tail of `create` once the application id is resolved (source lines
715-937): resource group creation, template parameter construction,
validation, template apply, telemetry linking, and the final
`updateDeploymentJsonFile` step. -/
def createRest (env : CreateEnv) (name location environment appPassword : String)
    (createLuisResource createLuisAuthoringResource createCosmosDb createStorage
      createAppInsights : Bool) :
    JsonV → List Effect × Except String (Option (List (String × JsonV)))
  | appId =>
    let resourceGroupName := name ++ "-" ++ environment
    let deploymentTemplateParam :=
      getDeploymentTemplateParam appId appPassword location name
        createLuisAuthoringResource createLuisResource createAppInsights
        createCosmosDb createStorage
    let t0 : List Effect :=
      [Effect.createResourceGroup resourceGroupName location,
       Effect.validateDeployment resourceGroupName deploymentTemplateParam]
    match env.validationError with
    | some e => (t0, Except.error ("! Error: " ++ e.message))
    | none =>
      let t1 := t0 ++ [Effect.createDeployment resourceGroupName deploymentTemplateParam]
      if env.deploymentStatus ≠ 200 then
        (t1, Except.error "! Error: undefined")
      else
        let t2 := if createAppInsights then t1 ++ [Effect.linkAppInsights resourceGroupName] else t1
        if createAppInsights = true ∧ env.appinsightsId ≠ "" ∧ env.instrumentationKey ≠ ""
            ∧ env.apiKey ≠ "" ∧ env.botHasProperties = true ∧ env.botUpdateStatus ≠ 200 then
          (t2, Except.error "Linking Application Insights Failed.")
        else
          let updateResult := updateDeploymentJsonFile env.deploymentOutputs appId appPassword
          let t3 := t2 ++ [Effect.getDeploymentOutputs resourceGroupName env.timeStamp]
          match updateResult with
          | none => (t3 ++ [Effect.listDeploymentOperations resourceGroupName], Except.ok none)
          | some r => (t3, Except.ok (some r))

/-- The `create` orchestrator (source lines 650-937): tenant resolution,
application-registration reuse or creation, then `createRest`. -/
def create (env : CreateEnv) (name location environment appPassword : String)
    (createLuisResource createLuisAuthoringResource createCosmosDb createStorage
      createAppInsights : Bool) :
    List Effect × Except String (Option (List (String × JsonV))) :=
  if env.accessToken = "" then
    ([], Except.error "Error: Missing access token. Please provide a non-expired Azure access token. Tokens can be obtained by running az account get-access-token")
  else if env.subId = "" then
    ([], Except.error "Error: Missing subscription Id. Please provide a valid Azure subscription id.")
  else
    match env.tenantLookup with
    | none => ([Effect.getTenant], Except.error "Get Tenant Id Failed")
    | some _ =>
      let settings := if env.settingsFileExists then env.settings else []
      let appIdRead := objGet settings "MicrosoftAppId"
      if jsTruthyOpt appIdRead then
        let rest := createRest env name location environment appPassword
          createLuisResource createLuisAuthoringResource createCosmosDb
          createStorage createAppInsights (appIdRead.getD JsonV.vnull)
        (Effect.getTenant :: rest.1, rest.2)
      else if appPassword = "" then
        ([Effect.getTenant], Except.error "App password is required")
      else
        let rest := createRest env name location environment appPassword
          createLuisResource createLuisAuthoringResource createCosmosDb
          createStorage createAppInsights (JsonV.vstr env.createdAppId)
        (Effect.getTenant :: Effect.createApp name appPassword :: rest.1, rest.2)

/-- File-system contents and build results consumed by one `deploy` run. -/
structure DeployEnv where
  zipExists : Bool
  artifactsPath : String
  settings : List (String × JsonV)

/-- The `deploy` orchestrator (source lines 303-384) as the trace of its
steps: clean the stale archive, run the external build, publish LUIS only
when the settings carry a truthy `luis` object with both an authoring key
and a region, then package and upload. -/
def deploy (env : DeployEnv) (zipPath settingsPath name environment : String)
    (language hostname : Option String) : List Effect :=
  let t0 := if env.zipExists then [Effect.removeFile zipPath] else []
  let t1 := t0 ++ [Effect.buildDeploy, Effect.readSettings settingsPath]
  let lang :=
    match language with
    | some s => if s = "" then "en-us" else s
    | none => "en-us"
  let t2 :=
    match objGet env.settings "luis" with
    | some l =>
      if jsTruthy l then
        if jsTruthyOpt (getField l "authoringKey") && jsTruthyOpt (getField l "region") then
          t1 ++ [Effect.publishLuis env.artifactsPath name environment lang]
        else t1
      else t1
    | none => t1
  t2 ++ [Effect.zipDirectory env.artifactsPath zipPath,
         Effect.deployZip zipPath (hostname.getD (name ++ "-" ++ environment))]

/-! ### Helper lemmas about the `create` trace -/

theorem createRest_trace_all (env : CreateEnv)
    (name location environment appPassword : String) (b1 b2 b3 b4 b5 : Bool)
    (appId : JsonV) (pred : Effect → Bool)
    (h1 : ∀ rg loc, pred (Effect.createResourceGroup rg loc) = true)
    (h2 : ∀ rg p, pred (Effect.validateDeployment rg p) = true)
    (h3 : ∀ rg p, pred (Effect.createDeployment rg p) = true)
    (h4 : ∀ rg, pred (Effect.linkAppInsights rg) = true)
    (h5 : ∀ rg ts, pred (Effect.getDeploymentOutputs rg ts) = true)
    (h6 : ∀ rg, pred (Effect.listDeploymentOperations rg) = true) :
    ((createRest env name location environment appPassword b1 b2 b3 b4 b5 appId).1.all pred)
      = true := by
  unfold createRest
  cases hval : env.validationError with
  | some e => simp [hval, h1, h2]
  | none =>
    by_cases hd : env.deploymentStatus = 200
    · cases b5 with
      | true =>
        by_cases hbig : env.appinsightsId ≠ "" ∧ env.instrumentationKey ≠ ""
            ∧ env.apiKey ≠ "" ∧ env.botHasProperties = true ∧ env.botUpdateStatus ≠ 200
        · simp [hval, hd, hbig, h1, h2, h3, h4]
        · cases hupd : updateDeploymentJsonFile env.deploymentOutputs appId appPassword with
          | none => simp [hval, hd, hbig, hupd, h1, h2, h3, h4, h5, h6]
          | some r => simp [hval, hd, hbig, hupd, h1, h2, h3, h4, h5]
      | false =>
        cases hupd : updateDeploymentJsonFile env.deploymentOutputs appId appPassword with
        | none => simp [hval, hd, hupd, h1, h2, h3, h5, h6]
        | some r => simp [hval, hd, hupd, h1, h2, h3, h5]
    · simp [hval, hd, h1, h2, h3]

theorem createRest_validate_params (env : CreateEnv)
    (name location environment appPassword : String) (b1 b2 b3 b4 b5 : Bool)
    (appId : JsonV) :
    ∀ rg p, Effect.validateDeployment rg p ∈
        (createRest env name location environment appPassword b1 b2 b3 b4 b5 appId).1 →
      p = getDeploymentTemplateParam appId appPassword location name b2 b1 b5 b3 b4 := by
  intro rg p hp
  unfold createRest at hp
  cases hval : env.validationError with
  | some e =>
    simp [hval] at hp
    exact hp.2
  | none =>
    rw [hval] at hp
    by_cases hd : env.deploymentStatus = 200
    · cases b5 with
      | true =>
        by_cases hbig : env.appinsightsId ≠ "" ∧ env.instrumentationKey ≠ ""
            ∧ env.apiKey ≠ "" ∧ env.botHasProperties = true ∧ env.botUpdateStatus ≠ 200
        · simp [hd, hbig] at hp
          exact hp.2
        · cases hupd : updateDeploymentJsonFile env.deploymentOutputs appId appPassword with
          | none => simp [hd, hbig, hupd] at hp; exact hp.2
          | some r => simp [hd, hbig, hupd] at hp; exact hp.2
      | false =>
        cases hupd : updateDeploymentJsonFile env.deploymentOutputs appId appPassword with
        | none => simp [hd, hupd] at hp; exact hp.2
        | some r => simp [hd, hupd] at hp; exact hp.2
    · simp [hd] at hp
      exact hp.2

theorem createRest_validation_error (env : CreateEnv)
    (name location environment appPassword : String) (b1 b2 b3 b4 b5 : Bool)
    (appId : JsonV) (e : DeployValidationError) (h : env.validationError = some e) :
    createRest env name location environment appPassword b1 b2 b3 b4 b5 appId =
      ([Effect.createResourceGroup (name ++ "-" ++ environment) location,
        Effect.validateDeployment (name ++ "-" ++ environment)
          (getDeploymentTemplateParam appId appPassword location name b2 b1 b5 b3 b4)],
       Except.error ("! Error: " ++ e.message)) := by
  unfold createRest
  simp [h]

/-! ### Claim C2 (corrected) -/

/-- C2 counterexample: with the output path nested inside the source
directory at a relative path other than `code.zip` (here `bot.zip`), the
archive produced by `zipDirectory` does contain an entry at its own output
path, refuting the claim as stated. -/
theorem zipDirectory_includes_nested_output :
    archiveContainsItself ["bot.zip", "main.dialog"] "/proj" "/proj/bot.zip" = true := by
  decide

/-- C2 (amended): the ignore list of `zipDirectory` is the literal
`code.zip`, so the archive never contains an entry at the relative path
`code.zip`; the output file is therefore excluded exactly when the output
path is `code.zip` at the top of the source directory, and for any other
output path nested inside the source the archive can contain an entry at
its own output path. -/
theorem zipEntries_never_contain_code_zip (sourceFiles : List String) :
    "code.zip" ∉ zipEntries sourceFiles := by
  intro hmem
  simp [zipEntries, List.mem_filter] at hmem

/-! ### Claim C3 (code bug) -/

/-- C3: evaluation at the failing input. The account-list catch handler
tests `indexOf('access token expiry') > 0`, so an error body whose message
begins with the token-expiry text (`indexOf` returns 0) is rethrown
verbatim instead of producing the descriptive `Type: ..., Message: ...`
error that the specification describes. -/
theorem accountList_expiry_at_start_rethrown_verbatim :
    accountListCatchHandler
        (some ⟨some "access token expiry on 2020-05-01, please renew", some "401"⟩)
      = Rethrown.original := by
  decide

/-! ### Claim C4 (corrected) -/

/-- C4 counterexample: a settings file whose `luis` record holds the app id
`OldDialog -> old-id` is rewritten by the `publishLuis` settings step with a
config built only from the current build (app id `NewDialog -> new-id`);
the previously present `OldDialog` id is gone, refuting the superset
claim. -/
theorem publishLuis_overwrite_drops_prior_appIds :
    luisAppIdIn
        [("MicrosoftAppId", JsonV.vstr "app"),
         ("luis", JsonV.vobj [("authoringKey", JsonV.vstr "key"),
                              ("OldDialog", JsonV.vstr "old-id")])]
        "OldDialog" = some (JsonV.vstr "old-id") ∧
    luisAppIdIn
        (writeLuisSettings
          [("MicrosoftAppId", JsonV.vstr "app"),
           ("luis", JsonV.vobj [("authoringKey", JsonV.vstr "key"),
                                ("OldDialog", JsonV.vstr "old-id")])]
          (luisConfigOf "https://e" "ek" "key" "westus"
            [("NewDialog", JsonV.vstr "new-id")]))
        "OldDialog" = none :=
  ⟨rfl, rfl⟩

/-- C4 (amended): the settings write of `publishLuis` replaces the previous
`luis` field wholesale: after the write the `luis` sub-record is exactly
the freshly built config (base fields plus the app ids collected from the
current build), so app ids present only in the prior file contents are
dropped rather than merged. -/
theorem writeLuisSettings_replaces_luis_field (settings luisConfig : List (String × JsonV)) :
    objGet (writeLuisSettings settings luisConfig) "luis" = some (JsonV.vobj luisConfig) := by
  unfold writeLuisSettings
  rw [objGet_assignKV]
  simp

/-! ### Claim C8 (confirmed) -/

theorem objGet_foldl_assignObj (files : List (List (String × JsonV)))
    (init : List (String × JsonV)) (k : String)
    (h : ∀ f ∈ files, (f.map Prod.fst).Nodup) :
    objGet (files.foldl assignObj init) k =
      files.foldl (fun acc f => jsOrElse (objGet f k) acc) (objGet init k) := by
  induction files generalizing init with
  | nil => rfl
  | cons f t ih =>
    simp only [List.foldl_cons]
    rw [ih _ (fun g hg => h g (List.mem_cons_of_mem f hg)),
      objGet_assignObj _ _ _ (h f (List.mem_cons_self f t))]

/-- C8: the app id mapping accumulated by `publishLuis` from the
`luis.settings` files equals, at every key, the union of the luis objects
of those files where on a collision the value from the later file in
enumeration order wins. -/
theorem mergedLuisAppIds_lastWriteWins (files : List (List (String × JsonV)))
    (h : ∀ f ∈ files, (f.map Prod.fst).Nodup) (k : String) :
    objGet (mergedLuisAppIds files) k = lastWriteWinsUnion files k := by
  unfold mergedLuisAppIds lastWriteWinsUnion
  rw [objGet_foldl_assignObj files [] k h]
  rfl

/-- C8 witness: two files both defining `dlgA`; the merged mapping agrees
with the last-write-wins union. -/
theorem mergedLuisAppIds_lastWriteWins_witness :
    (∀ f ∈ [[("dlgA", JsonV.vstr "id1")],
            [("dlgA", JsonV.vstr "id2"), ("dlgB", JsonV.vstr "id3")]],
      (f.map Prod.fst).Nodup) ∧
    objGet (mergedLuisAppIds [[("dlgA", JsonV.vstr "id1")],
        [("dlgA", JsonV.vstr "id2"), ("dlgB", JsonV.vstr "id3")]]) "dlgA"
      = lastWriteWinsUnion [[("dlgA", JsonV.vstr "id1")],
          [("dlgA", JsonV.vstr "id2"), ("dlgB", JsonV.vstr "id3")]] "dlgA" :=
  ⟨by decide, mergedLuisAppIds_lastWriteWins _ (by decide) "dlgA"⟩

/-! ### Claim C9 (confirmed) -/

/-- C9: in the base LUIS config object built by `publishLuis`, the
`authoringKey` field carries the value of the `luisAuthoringRegion`
argument, never the `luisAuthoringKey` argument (the object does not depend
on that argument at all), while `endpoint`, `endpointKey` and
`authoringRegion` come from their corresponding arguments. -/
theorem publishLuis_base_config_fields (luisEndpoint luisEndpointKey luisAuthoringKey
    luisAuthoringRegion : String) (h : luisEndpoint ≠ "") :
    objGet (publishLuisBaseConfig luisEndpoint luisEndpointKey luisAuthoringKey
        luisAuthoringRegion) "authoringKey" = some (JsonV.vstr luisAuthoringRegion) ∧
    objGet (publishLuisBaseConfig luisEndpoint luisEndpointKey luisAuthoringKey
        luisAuthoringRegion) "endpoint" = some (JsonV.vstr luisEndpoint) ∧
    objGet (publishLuisBaseConfig luisEndpoint luisEndpointKey luisAuthoringKey
        luisAuthoringRegion) "endpointKey" = some (JsonV.vstr luisEndpointKey) ∧
    objGet (publishLuisBaseConfig luisEndpoint luisEndpointKey luisAuthoringKey
        luisAuthoringRegion) "authoringRegion" = some (JsonV.vstr luisAuthoringRegion) ∧
    ∀ otherKey : String,
      publishLuisBaseConfig luisEndpoint luisEndpointKey otherKey luisAuthoringRegion
        = publishLuisBaseConfig luisEndpoint luisEndpointKey luisAuthoringKey
            luisAuthoringRegion := by
  have hep : ∀ anyKey : String,
      publishLuisBaseConfig luisEndpoint luisEndpointKey anyKey luisAuthoringRegion =
      [("endpoint", JsonV.vstr luisEndpoint),
       ("endpointKey", JsonV.vstr luisEndpointKey),
       ("authoringRegion", JsonV.vstr luisAuthoringRegion),
       ("authoringKey", JsonV.vstr luisAuthoringRegion)] := by
    intro anyKey
    simp only [publishLuisBaseConfig]
    rw [if_neg h]
  rw [hep luisAuthoringKey]
  exact ⟨rfl, rfl, rfl, rfl, fun k2 => hep k2⟩

/-- C9 witness: concrete arguments with a non-empty endpoint. -/
theorem publishLuis_base_config_fields_witness :
    ("https://e" ≠ "") ∧
    (objGet (publishLuisBaseConfig "https://e" "ek" "ak" "westus") "authoringKey"
        = some (JsonV.vstr "westus") ∧
      objGet (publishLuisBaseConfig "https://e" "ek" "ak" "westus") "endpoint"
        = some (JsonV.vstr "https://e") ∧
      objGet (publishLuisBaseConfig "https://e" "ek" "ak" "westus") "endpointKey"
        = some (JsonV.vstr "ek") ∧
      objGet (publishLuisBaseConfig "https://e" "ek" "ak" "westus") "authoringRegion"
        = some (JsonV.vstr "westus") ∧
      ∀ otherKey : String,
        publishLuisBaseConfig "https://e" "ek" otherKey "westus"
          = publishLuisBaseConfig "https://e" "ek" "ak" "westus") :=
  ⟨by decide, publishLuis_base_config_fields "https://e" "ek" "ak" "westus" (by decide)⟩

/-! ### Claim C10 (confirmed) -/

theorem objGet_unpackObject_none (l : List (String × JsonV)) (k : String)
    (h : k ∉ l.map Prod.fst) : objGet (unpackObject l) k = none := by
  induction l with
  | nil => rfl
  | cons hd tl ih =>
    obtain ⟨k0, o0⟩ := hd
    simp only [List.map_cons, List.mem_cons, not_or] at h
    simp only [unpackObject]
    cases hg : getField o0 "value" with
    | none => exact ih h.2
    | some v =>
      cases ht : jsTruthy v with
      | false =>
        simp only [ht, Bool.false_eq_true, if_false]
        exact ih h.2
      | true =>
        simp only [ht, if_true, objGet, if_neg h.1]
        exact ih h.2

/-- C10: for a deployment-outputs object with unique keys, the flat mapping
produced by `unpackObject` binds key `k` to `v` exactly when the outputs
bind `k` to an entry whose `value` field is `v` and `v` is truthy; entries
with a falsy or absent wrapped value are omitted. -/
theorem unpackObject_truthy_membership (output : List (String × JsonV))
    (hnd : (output.map Prod.fst).Nodup) (k : String) (v : JsonV) :
    objGet (unpackObject output) k = some v ↔
      ∃ o, objGet output k = some o ∧ getField o "value" = some v
        ∧ jsTruthy v = true := by
  induction output with
  | nil => simp [unpackObject, objGet]
  | cons hd tl ih =>
    obtain ⟨k0, o0⟩ := hd
    simp only [List.map_cons, List.nodup_cons] at hnd
    by_cases hk : k = k0
    · subst hk
      have hnone : objGet (unpackObject tl) k = none :=
        objGet_unpackObject_none tl k hnd.1
      cases hg : getField o0 "value" with
      | none => simp [unpackObject, hg, objGet, hnone]
      | some v0 =>
        cases ht : jsTruthy v0 with
        | true =>
          simp only [unpackObject, hg, ht, if_true, objGet, if_pos rfl]
          constructor
          · intro h'
            obtain rfl : v0 = v := by simpa using h'
            exact ⟨o0, rfl, hg, ht⟩
          · rintro ⟨o, ho, hval, htr⟩
            obtain rfl : o0 = o := by simpa using ho
            rw [hg] at hval
            simpa using hval
        | false =>
          simp only [unpackObject, hg, ht, Bool.false_eq_true, if_false, hnone]
          constructor
          · intro h'
            exact absurd h' (by simp)
          · rintro ⟨o, ho, hval, htr⟩
            obtain rfl : o0 = o := by simpa [objGet] using ho
            rw [hg] at hval
            obtain rfl : v0 = v := by simpa using hval
            rw [ht] at htr
            exact absurd htr (by simp)
    · have hrec := ih hnd.2
      cases hg : getField o0 "value" with
      | some v0 =>
        cases ht : jsTruthy v0 with
        | true => simpa [unpackObject, hg, ht, objGet, hk] using hrec
        | false => simpa [unpackObject, hg, ht, objGet, hk] using hrec
      | none => simpa [unpackObject, hg, objGet, hk] using hrec

/-- C10 witness: an output with one truthy and one falsy wrapped entry. -/
theorem unpackObject_truthy_membership_witness :
    ((([("hostname", JsonV.vobj [("value", JsonV.vstr "site")]),
        ("blank", JsonV.vobj [("value", JsonV.vstr "")])]).map Prod.fst).Nodup) ∧
    (objGet (unpackObject [("hostname", JsonV.vobj [("value", JsonV.vstr "site")]),
          ("blank", JsonV.vobj [("value", JsonV.vstr "")])]) "hostname"
        = some (JsonV.vstr "site") ↔
      ∃ o, objGet [("hostname", JsonV.vobj [("value", JsonV.vstr "site")]),
            ("blank", JsonV.vobj [("value", JsonV.vstr "")])] "hostname" = some o
        ∧ getField o "value" = some (JsonV.vstr "site")
        ∧ jsTruthy (JsonV.vstr "site") = true) :=
  ⟨by decide,
    unpackObject_truthy_membership
      [("hostname", JsonV.vobj [("value", JsonV.vstr "site")]),
       ("blank", JsonV.vobj [("value", JsonV.vstr "")])]
      (by decide) "hostname" (JsonV.vstr "site")⟩

/-! ### Claim C1 (code bug) -/

/-- Membership form of the no-persistence fact: every effect in any
`create` trace is not a file write. -/
theorem create_trace_no_write_mem (env : CreateEnv)
    (name location environment appPassword : String) (b1 b2 b3 b4 b5 : Bool) :
    ∀ eff ∈ (create env name location environment appPassword b1 b2 b3 b4 b5).1,
      eff.isWrite = false := by
  have hr : ∀ (a : JsonV), ∀ eff ∈
      (createRest env name location environment appPassword b1 b2 b3 b4 b5 a).1,
      eff.isWrite = false := by
    intro a eff heff
    have hall := createRest_trace_all env name location environment appPassword
      b1 b2 b3 b4 b5 a (fun e => !e.isWrite)
      (fun _ _ => rfl) (fun _ _ => rfl) (fun _ _ => rfl) (fun _ => rfl)
      (fun _ _ => rfl) (fun _ => rfl)
    have hx := List.all_eq_true.mp hall eff heff
    simpa using hx
  intro eff heff
  unfold create at heff
  by_cases h1 : env.accessToken = ""
  · simp [h1] at heff
  · by_cases h2 : env.subId = ""
    · simp [h1, h2] at heff
    · cases h3 : env.tenantLookup with
      | none =>
        simp [h1, h2, h3] at heff
        subst heff
        rfl
      | some t =>
        by_cases h4 : jsTruthyOpt
            (objGet (if env.settingsFileExists then env.settings else []) "MicrosoftAppId")
            = true
        · simp [h1, h2, h3, h4] at heff
          rcases heff with rfl | heff
          · rfl
          · exact hr _ eff heff
        · by_cases h5 : appPassword = ""
          · simp [h1, h2, h3, h4, h5] at heff
            subst heff
            rfl
          · simp [h1, h2, h3, h4, h5] at heff
            rcases heff with rfl | rfl | heff
            · rfl
            · rfl
            · exact hr _ eff heff

/-- C1: the resulting settings record computed by `create` is returned to
the caller but never persisted: no run of `create`, successful or not, ever
performs a file-write effect, so the deployment-settings file on disk is
left untouched (the body of `updateDeploymentJsonFile` contains no write,
contrary to its own doc comment and to the claim). -/
theorem create_never_writes_settings (env : CreateEnv)
    (name location environment appPassword : String) (b1 b2 b3 b4 b5 : Bool) :
    ((create env name location environment appPassword b1 b2 b3 b4 b5).1.all
      (fun e => !e.isWrite)) = true := by
  rw [List.all_eq_true]
  intro eff heff
  have hw := create_trace_no_write_mem env name location environment appPassword
    b1 b2 b3 b4 b5 eff heff
  simp [hw]

/-! ### Claim C5 (confirmed) -/

/-- C5: whenever the deployment-validate response carries a non-null error
object, `create` ends in a thrown error and its trace contains no
create-or-update (template apply) call: validation failure aborts strictly
before the template is applied. -/
theorem create_validation_error_throws_before_apply (env : CreateEnv)
    (name location environment appPassword : String) (b1 b2 b3 b4 b5 : Bool)
    (e : DeployValidationError) (h : env.validationError = some e) :
    (∃ msg, (create env name location environment appPassword b1 b2 b3 b4 b5).2
        = Except.error msg) ∧
    ∀ eff ∈ (create env name location environment appPassword b1 b2 b3 b4 b5).1,
      eff.isCreateDeployment = false := by
  have hre : ∀ a : JsonV,
      createRest env name location environment appPassword b1 b2 b3 b4 b5 a =
        ([Effect.createResourceGroup (name ++ "-" ++ environment) location,
          Effect.validateDeployment (name ++ "-" ++ environment)
            (getDeploymentTemplateParam a appPassword location name b2 b1 b5 b3 b4)],
         Except.error ("! Error: " ++ e.message)) := fun a =>
    createRest_validation_error env name location environment appPassword b1 b2 b3 b4 b5 a e h
  constructor
  · unfold create
    by_cases h1 : env.accessToken = ""
    · simp [h1]
    · by_cases h2 : env.subId = ""
      · simp [h1, h2]
      · cases h3 : env.tenantLookup with
        | none => simp [h1, h2, h3]
        | some t =>
          by_cases h4 : jsTruthyOpt
              (objGet (if env.settingsFileExists then env.settings else []) "MicrosoftAppId")
              = true
          · simp [h1, h2, h3, h4, hre]
          · by_cases h5 : appPassword = ""
            · simp [h1, h2, h3, h4, h5]
            · simp [h1, h2, h3, h4, h5, hre]
  · intro eff heff
    unfold create at heff
    by_cases h1 : env.accessToken = ""
    · simp [h1] at heff
    · by_cases h2 : env.subId = ""
      · simp [h1, h2] at heff
      · cases h3 : env.tenantLookup with
        | none =>
          simp [h1, h2, h3] at heff
          subst heff
          rfl
        | some t =>
          by_cases h4 : jsTruthyOpt
              (objGet (if env.settingsFileExists then env.settings else []) "MicrosoftAppId")
              = true
          · simp [h1, h2, h3, h4, hre] at heff
            rcases heff with rfl | rfl | rfl <;> rfl
          · by_cases h5 : appPassword = ""
            · simp [h1, h2, h3, h4, h5] at heff
              subst heff
              rfl
            · simp [h1, h2, h3, h4, h5, hre] at heff
              rcases heff with rfl | rfl | rfl | rfl <;> rfl

/-- C5 witness: a concrete environment whose validate response carries an
error object. -/
theorem create_validation_error_throws_before_apply_witness :
    (CreateEnv.validationError
        ⟨"tok", "sub", some "tenant", true, [("MicrosoftAppId", JsonV.vstr "app")],
          "new-app", some ⟨"bad template", ["detail"]⟩, 200, "ai", "ik", "ak",
          true, 200, some [], "123"⟩ = some ⟨"bad template", ["detail"]⟩) ∧
    ((∃ msg, (create
        ⟨"tok", "sub", some "tenant", true, [("MicrosoftAppId", JsonV.vstr "app")],
          "new-app", some ⟨"bad template", ["detail"]⟩, 200, "ai", "ik", "ak",
          true, 200, some [], "123"⟩ "mybot" "westus" "dev" "pwd" true true true true true).2
        = Except.error msg) ∧
    ∀ eff ∈ (create
        ⟨"tok", "sub", some "tenant", true, [("MicrosoftAppId", JsonV.vstr "app")],
          "new-app", some ⟨"bad template", ["detail"]⟩, 200, "ai", "ik", "ak",
          true, 200, some [], "123"⟩ "mybot" "westus" "dev" "pwd" true true true true true).1,
      eff.isCreateDeployment = false) :=
  ⟨rfl, create_validation_error_throws_before_apply _ "mybot" "westus" "dev" "pwd"
    true true true true true ⟨"bad template", ["detail"]⟩ rfl⟩

/-! ### Claim C6 (confirmed) -/

/-- C6: when the settings file exists and carries a non-empty
`MicrosoftAppId`, `create` never performs the application-registration
creation call — whatever app password is supplied — and every template
validation in the trace carries the existing app id in its `appId`
parameter. -/
theorem create_reuses_existing_appId (env : CreateEnv)
    (name location environment appPassword : String) (b1 b2 b3 b4 b5 : Bool)
    (s : String) (hex : env.settingsFileExists = true)
    (hid : objGet env.settings "MicrosoftAppId" = some (JsonV.vstr s)) (hs : s ≠ "") :
    (∀ eff ∈ (create env name location environment appPassword b1 b2 b3 b4 b5).1,
      eff.isCreateApp = false) ∧
    (∀ rg p, Effect.validateDeployment rg p ∈
        (create env name location environment appPassword b1 b2 b3 b4 b5).1 →
      objGet p "appId" = some (pack (JsonV.vstr s))) := by
  have hrA : ∀ eff ∈ (createRest env name location environment appPassword b1 b2 b3 b4 b5
      (JsonV.vstr s)).1, eff.isCreateApp = false := by
    intro eff heff
    have hall := createRest_trace_all env name location environment appPassword
      b1 b2 b3 b4 b5 (JsonV.vstr s) (fun e => !e.isCreateApp)
      (fun _ _ => rfl) (fun _ _ => rfl) (fun _ _ => rfl) (fun _ => rfl)
      (fun _ _ => rfl) (fun _ => rfl)
    have hx := List.all_eq_true.mp hall eff heff
    simpa using hx
  have hrP := createRest_validate_params env name location environment appPassword
    b1 b2 b3 b4 b5 (JsonV.vstr s)
  have h4 : jsTruthyOpt
      (objGet (if env.settingsFileExists then env.settings else []) "MicrosoftAppId")
      = true := by
    rw [hex]
    simp [hid, jsTruthyOpt, jsTruthy, hs]
  have h4v : (objGet (if env.settingsFileExists then env.settings else [])
      "MicrosoftAppId").getD JsonV.vnull = JsonV.vstr s := by
    rw [hex]
    simp [hid]
  constructor
  · intro eff heff
    unfold create at heff
    by_cases h1 : env.accessToken = ""
    · simp [h1] at heff
    · by_cases h2 : env.subId = ""
      · simp [h1, h2] at heff
      · cases h3 : env.tenantLookup with
        | none =>
          simp [h1, h2, h3] at heff
          subst heff
          rfl
        | some t =>
          simp [h1, h2, h3, h4, h4v] at heff
          rcases heff with rfl | heff
          · rfl
          · exact hrA eff heff
  · intro rg p hp
    unfold create at hp
    by_cases h1 : env.accessToken = ""
    · simp [h1] at hp
    · by_cases h2 : env.subId = ""
      · simp [h1, h2] at hp
      · cases h3 : env.tenantLookup with
        | none =>
          simp [h1, h2, h3] at hp
        | some t =>
          simp [h1, h2, h3, h4, h4v] at hp
          rw [hrP rg p hp]
          rfl

/-- C6 witness: a concrete environment whose settings carry an existing
`MicrosoftAppId`, with a non-empty password supplied. -/
theorem create_reuses_existing_appId_witness :
    (CreateEnv.settingsFileExists
        ⟨"tok", "sub", some "tenant", true, [("MicrosoftAppId", JsonV.vstr "existing-app")],
          "new-app", none, 200, "ai", "ik", "ak", true, 200, some [], "123"⟩ = true) ∧
    (objGet (CreateEnv.settings
        ⟨"tok", "sub", some "tenant", true, [("MicrosoftAppId", JsonV.vstr "existing-app")],
          "new-app", none, 200, "ai", "ik", "ak", true, 200, some [], "123"⟩)
      "MicrosoftAppId" = some (JsonV.vstr "existing-app")) ∧
    ("existing-app" ≠ "") ∧
    ((∀ eff ∈ (create
        ⟨"tok", "sub", some "tenant", true, [("MicrosoftAppId", JsonV.vstr "existing-app")],
          "new-app", none, 200, "ai", "ik", "ak", true, 200, some [], "123"⟩
        "mybot" "westus" "dev" "pwd" true true true true true).1,
      eff.isCreateApp = false) ∧
    (∀ rg p, Effect.validateDeployment rg p ∈
        (create
        ⟨"tok", "sub", some "tenant", true, [("MicrosoftAppId", JsonV.vstr "existing-app")],
          "new-app", none, 200, "ai", "ik", "ak", true, 200, some [], "123"⟩
        "mybot" "westus" "dev" "pwd" true true true true true).1 →
      objGet p "appId" = some (pack (JsonV.vstr "existing-app")))) :=
  ⟨rfl, rfl, by decide,
    create_reuses_existing_appId _ "mybot" "westus" "dev" "pwd" true true true true true
      "existing-app" rfl rfl (by decide)⟩

/-! ### Claim C7 (confirmed) -/

/-- C7: when the settings read by `deploy` have no `luis` key, or a `luis`
object lacking both an authoring key and a region, `deploy` performs no
LUIS publishing and proceeds directly from the build to packaging and
uploading. -/
theorem deploy_skips_luis_without_config (env : DeployEnv)
    (zipPath settingsPath name environment : String) (language hostname : Option String)
    (h : objGet env.settings "luis" = none ∨
      ∃ l, objGet env.settings "luis" = some l ∧ getField l "authoringKey" = none
        ∧ getField l "region" = none) :
    deploy env zipPath settingsPath name environment language hostname =
      (if env.zipExists then [Effect.removeFile zipPath] else []) ++
        [Effect.buildDeploy, Effect.readSettings settingsPath,
         Effect.zipDirectory env.artifactsPath zipPath,
         Effect.deployZip zipPath (hostname.getD (name ++ "-" ++ environment))] := by
  unfold deploy
  rcases h with h | ⟨l, hl, hak, har⟩
  · rw [h]
    simp
  · rw [hl]
    simp [hak, jsTruthyOpt]

/-- C7 witness: empty settings (no `luis` key). -/
theorem deploy_skips_luis_without_config_witness :
    (objGet (DeployEnv.settings ⟨false, "/artifacts", []⟩) "luis" = none ∨
      ∃ l, objGet (DeployEnv.settings ⟨false, "/artifacts", []⟩) "luis" = some l
        ∧ getField l "authoringKey" = none ∧ getField l "region" = none) ∧
    deploy ⟨false, "/artifacts", []⟩ "/proj/code.zip" "/proj/settings.json" "mybot" "dev"
        none none =
      (if (DeployEnv.zipExists ⟨false, "/artifacts", []⟩) then
          [Effect.removeFile "/proj/code.zip"] else []) ++
        [Effect.buildDeploy, Effect.readSettings "/proj/settings.json",
         Effect.zipDirectory (DeployEnv.artifactsPath ⟨false, "/artifacts", []⟩) "/proj/code.zip",
         Effect.deployZip "/proj/code.zip" (Option.getD none ("mybot" ++ "-" ++ "dev"))] :=
  ⟨Or.inl rfl,
    deploy_skips_luis_without_config ⟨false, "/artifacts", []⟩ "/proj/code.zip"
      "/proj/settings.json" "mybot" "dev" none none (Or.inl rfl)⟩

end BotDeploy
